import Mathlib

/-!
# Verification of the leoviz network-simulation core

A shallow embedding of the topology-building and experiment-orchestration
driver of the leoviz repository (the ns-3 `run` routine of the satsim
script): node construction with a name registry, per-link subnet
allocation `10.1.<counter>.0/24`, boundary packet capture, global routing
population, and sender/receiver application installation.

The embedding follows the source statement by statement.  Engine-side
collaborators (the ns-3 name registry, the IPv4 address helper) are
modelled by their documented semantics: `Names::Add` rejects a duplicate
name (a fatal build error), `Names::Find` returns a null handle for an
unknown name, and `Ipv4AddressHelper::Assign` hands the k-th device of a
link the (k+1)-th host address of the subnet most recently set as base.
-/

namespace LeoViz

/-- A node entry of the parsed `topology.nodes` list. -/
structure ConfigNode where
  name : String
deriving DecidableEq

/-- A link entry of the parsed `topology.links` list. -/
structure ConfigLink where
  source : String
  target : String
  data_rate : String
  delay : String
deriving DecidableEq

/-- The parsed config: ordered node and link declarations. -/
structure Config where
  nodes : List ConfigNode
  links : List ConfigLink
deriving DecidableEq

/-- A host address: the subnet base string set via `Ipv4AddressHelper::SetBase`
together with the host number inside that subnet (`.1`, `.2`, ...).
Modelled from ns-3 `Ipv4AddressHelper` semantics: after `SetBase(subnet, mask)`
the k-th assigned device receives host number k+1. -/
structure HostAddr where
  subnet : String
  host : Nat
deriving DecidableEq

/-- Observable build/run actions of the driver, recorded in program order. -/
inductive Event where
  | setDefault (attr : String) (value : String)
  | setSeed (seed : Nat)
  | nodeCreated (id : Nat) (name : String)
  | installStack
  | linkBuilt (index : Nat) (source target : Option Nat)
  | subnetAssigned (index : Nat) (subnet mask : String)
  | pcapEnabled (tag : String) (linkIndex deviceIndex : Nat)
  | populateRoutingTables
  | appInstalled (kind : String) (node : Option Nat) (remote : Option HostAddr) (port : Nat)
  | appStart (kind : String) (time : Nat)
  | simStop (time : Nat)
deriving DecidableEq

/-- Build-time failures of the spec's error taxonomy.  The embedded driver
only ever produces `DuplicateNameError` (the engine's `Names::Add` abort);
the other constructors exist so that theorems can state their absence. -/
inductive BuildError where
  | DuplicateNameError (name : String)
  | ReferenceError (linkIndex : Nat) (missing : String)
  | AddressSpaceExhausted
deriving DecidableEq

/-- The name registry: name/node pairs in registration order.
Modelled from the spec: the Name Registry component (realized by the
engine's `Names` table, which is not under `src/`). -/
abbrev Registry := List (String × Nat)

/-- `Names::Find`: look a name up, returning a null handle (`none`) when the
name was never registered. -/
def findName : Registry → String → Option Nat
  | [], _ => none
  | (k, v) :: rest, name => if k = name then some v else findName rest name

/-- `Names::Add`: register a name; a duplicate name is a fatal build error,
never an overwrite. -/
def namesAdd (reg : Registry) (name : String) (id : Nat) : Except BuildError Registry :=
  match findName reg name with
  | some _ => .error (.DuplicateNameError name)
  | none => .ok (reg ++ [(name, id)])

/-- State accumulated by the node-construction loop. -/
structure NodePhase where
  registry : Registry
  nodeIds : List Nat
  srcNode : Option Nat
  dstNode : Option Nat
  events : List Event
deriving DecidableEq

/-- The node loop of `run`: for the i-th node spec create a node (node ids
count creation order), register its name, remember the first node as source
and the last as destination. -/
def buildNodesAux (total : Nat) : List ConfigNode → Nat → NodePhase →
    Except BuildError NodePhase
  | [], _, st => .ok st
  | spec :: rest, i, st =>
    match namesAdd st.registry spec.name i with
    | .error e => .error e
    | .ok reg =>
      buildNodesAux total rest (i + 1)
        { registry := reg
          nodeIds := st.nodeIds ++ [i]
          srcNode := if i = 0 then some i else st.srcNode
          dstNode := if i = total - 1 then some i else st.dstNode
          events := st.events ++ [.nodeCreated i spec.name] }

/-- The subnet base string built for a given value of the link counter:
`"10.1." + std::to_string(linkCounter) + ".0"`. -/
def subnetString (counter : Nat) : String :=
  "10.1." ++ Nat.repr counter ++ ".0"

/-- The fixed subnet mask handed to `SetBase`. -/
def subnetMask : String := "255.255.255.0"

/-- What one built link records: its index, the two endpoint handles in
(source, target) device order, the assigned subnet and mask, and the host
address each endpoint device received from `Assign` (device 0 = source gets
host 1, device 1 = target gets host 2). -/
structure LinkInfo where
  index : Nat
  source : Option Nat
  target : Option Nat
  subnet : String
  mask : String
  sourceAddr : HostAddr
  targetAddr : HostAddr
deriving DecidableEq

/-- State accumulated by the link-construction loop. -/
structure LinkPhase where
  links : List LinkInfo
  srcAddress : Option HostAddr
  dstAddress : Option HostAddr
  linkCounter : Nat
  events : List Event
deriving DecidableEq

/-- One iteration of the link loop of `run`: resolve the endpoint names
(a missing name yields a null handle that is wired into the link), build
the link, assign the subnet from the post-incremented counter, and on the
first (resp. last) link record the source (resp. destination) address and
enable packet capture on the source-side (resp. destination-side) device. -/
def linkStep (reg : Registry) (total : Nat) (spec : ConfigLink) (i : Nat)
    (st : LinkPhase) : LinkPhase :=
  let source := findName reg spec.source
  let target := findName reg spec.target
  let subnet := subnetString st.linkCounter
  let addr0 : HostAddr := ⟨subnet, 1⟩
  let addr1 : HostAddr := ⟨subnet, 2⟩
  let info : LinkInfo := ⟨i, source, target, subnet, subnetMask, addr0, addr1⟩
  { links := st.links ++ [info]
    srcAddress := if i = 0 then some addr0 else st.srcAddress
    dstAddress := if i = total - 1 then some addr1 else st.dstAddress
    linkCounter := st.linkCounter + 1
    events := st.events ++
      [.linkBuilt i source target, .subnetAssigned i subnet subnetMask] ++
      (if i = 0 then [.pcapEnabled "src_" i 0] else []) ++
      (if i = total - 1 then [.pcapEnabled "dst_" i 1] else []) }

/-- The link loop of `run`: `linkStep` over the link specs in declaration
order. -/
def buildLinksAux (reg : Registry) (total : Nat) : List ConfigLink → Nat → LinkPhase →
    LinkPhase
  | [], _, st => st
  | spec :: rest, i, st =>
    buildLinksAux reg total rest (i + 1) (linkStep reg total spec i st)

/-- The transport-configuration snapshot applied by `Config::SetDefault`
at the top of `run`: recovery type, congestion-control socket type,
segment size, and the SACK setting. -/
def transportDefaults : List Event :=
  [ .setDefault "ns3::TcpL4Protocol::RecoveryType" "ns3::TcpClassicRecovery",
    .setDefault "ns3::TcpL4Protocol::SocketType" "ns3::TcpLinuxReno",
    .setDefault "ns3::TcpSocket::SegmentSize" "1446",
    .setDefault "ns3::TcpSocketBase::Sack" "true" ]

/-- The constant handed to `RngSeedManager::SetSeed`. -/
def seedConstant : Nat := 123456789

/-- The well-known receiver port. -/
def sinkPort : Nat := 50000

/-- Everything a completed run leaves behind. -/
structure RunResult where
  registry : Registry
  nodeIds : List Nat
  srcNode : Option Nat
  dstNode : Option Nat
  links : List LinkInfo
  srcAddress : Option HostAddr
  dstAddress : Option HostAddr
  rngSeed : Nat
  events : List Event
deriving DecidableEq

/-- The `run` routine of the satsim script, statement by statement:
transport defaults, seed, node loop, protocol-stack installation, link
loop, routing-table population, sender/receiver installation, application
starts, and the scheduled stop.  `initialSeed` is the engine's RNG seed at
entry; the routine overwrites it with `seedConstant` before building. -/
def run (config : Config) (initialSeed : Nat) : Except BuildError RunResult :=
  let seed := seedConstant
  let _ := initialSeed
  let np0 : NodePhase :=
    ⟨[], [], none, none, transportDefaults ++ [.setSeed seed]⟩
  match buildNodesAux config.nodes.length config.nodes 0 np0 with
  | .error e => .error e
  | .ok np =>
    let lp0 : LinkPhase := ⟨[], none, none, 0, np.events ++ [.installStack]⟩
    let lp := buildLinksAux np.registry config.links.length config.links 0 lp0
    .ok { registry := np.registry
          nodeIds := np.nodeIds
          srcNode := np.srcNode
          dstNode := np.dstNode
          links := lp.links
          srcAddress := lp.srcAddress
          dstAddress := lp.dstAddress
          rngSeed := seed
          events := lp.events ++
            [.populateRoutingTables,
             .appInstalled "BulkSend" np.srcNode lp.dstAddress sinkPort,
             .appInstalled "PacketSink" np.dstNode none sinkPort,
             .appStart "PacketSink" 0,
             .appStart "BulkSend" 0,
             .simStop 60] }

/-! ## Characterizations of the two build loops -/

/-- The node names of a config, in declaration order. -/
def namesOf (specs : List ConfigNode) : List String :=
  specs.map ConfigNode.name

/-- The events the node loop appends, starting at creation index `i`. -/
def nodeEventsFrom : List ConfigNode → Nat → List Event
  | [], _ => []
  | spec :: rest, i => .nodeCreated i spec.name :: nodeEventsFrom rest (i + 1)

/-- The registry entries the node loop appends, starting at index `i`. -/
def regFrom : List ConfigNode → Nat → Registry
  | [], _ => []
  | spec :: rest, i => (spec.name, i) :: regFrom rest (i + 1)

/-- The record the link loop produces for one link spec. -/
def mkLinkInfo (reg : Registry) (spec : ConfigLink) (i counter : Nat) : LinkInfo :=
  ⟨i, findName reg spec.source, findName reg spec.target,
   subnetString counter, subnetMask,
   ⟨subnetString counter, 1⟩, ⟨subnetString counter, 2⟩⟩

/-- The link records the link loop appends from index `i` and counter value
`counter` on. -/
def linkInfosFrom (reg : Registry) : List ConfigLink → Nat → Nat → List LinkInfo
  | [], _, _ => []
  | spec :: rest, i, counter =>
      mkLinkInfo reg spec i counter :: linkInfosFrom reg rest (i + 1) (counter + 1)

/-- The events one iteration of the link loop appends. -/
def linkBlock (reg : Registry) (total : Nat) (spec : ConfigLink) (i counter : Nat) :
    List Event :=
  [.linkBuilt i (findName reg spec.source) (findName reg spec.target),
   .subnetAssigned i (subnetString counter) subnetMask] ++
  (if i = 0 then [.pcapEnabled "src_" i 0] else []) ++
  (if i = total - 1 then [.pcapEnabled "dst_" i 1] else [])

/-- The events the link loop appends from index `i` and counter `counter` on. -/
def linkEventsFrom (reg : Registry) (total : Nat) : List ConfigLink → Nat → Nat → List Event
  | [], _, _ => []
  | spec :: rest, i, counter =>
      linkBlock reg total spec i counter ++ linkEventsFrom reg total rest (i + 1) (counter + 1)

/-! ## Event classifiers -/

def isTransportDefault : Event → Bool
  | .setDefault _ _ => true
  | _ => false

def isSetSeed : Event → Bool
  | .setSeed _ => true
  | _ => false

def isNodeCreated : Event → Bool
  | .nodeCreated _ _ => true
  | _ => false

def isLinkBuilt : Event → Bool
  | .linkBuilt _ _ _ => true
  | _ => false

def isSubnetAssigned : Event → Bool
  | .subnetAssigned _ _ _ => true
  | _ => false

def isPopulate : Event → Bool
  | .populateRoutingTables => true
  | _ => false

def isAppInstalled : Event → Bool
  | .appInstalled _ _ _ _ => true
  | _ => false

def isPcap : Event → Bool
  | .pcapEnabled _ _ _ => true
  | _ => false

/-! ## Decimal digit values (for reasoning about `Nat.repr`) -/

/-- Numeric value of a decimal digit character. -/
def charDigitVal (c : Char) : Nat := c.toNat - 48

/-- Value of a big-endian decimal digit string. -/
def decimalVal : List Char → Nat
  | [] => 0
  | c :: cs => charDigitVal c * 10 ^ cs.length + decimalVal cs

/-! ## Claim conclusions and concrete configurations -/

/-- C1 conclusion: the link at each zero-based position k carries link index
k, subnet string `10.1.k.0`, mask `255.255.255.0`, and host addresses 1
(source endpoint, first host) and 2 (target endpoint, second host) of that
subnet; no two links share a subnet. -/
def SubnetAllocationSpec (c : Config) (r : RunResult) : Prop :=
  r.links.length = c.links.length ∧
  (∀ (k : Nat) (hk : k < r.links.length),
    (r.links.get ⟨k, hk⟩).index = k ∧
    (r.links.get ⟨k, hk⟩).subnet = "10.1." ++ Nat.repr k ++ ".0" ∧
    (r.links.get ⟨k, hk⟩).mask = "255.255.255.0" ∧
    (r.links.get ⟨k, hk⟩).sourceAddr = ⟨(r.links.get ⟨k, hk⟩).subnet, 1⟩ ∧
    (r.links.get ⟨k, hk⟩).targetAddr = ⟨(r.links.get ⟨k, hk⟩).subnet, 2⟩) ∧
  (∀ (k j : Nat) (hk : k < r.links.length) (hj : j < r.links.length),
    k ≠ j → (r.links.get ⟨k, hk⟩).subnet ≠ (r.links.get ⟨j, hj⟩).subnet)

/-- C2 conclusion: routing-table population happens exactly once, strictly
after every link-construction event and strictly before every
application-installation event. -/
def RoutingOnceSpec (r : RunResult) : Prop :=
  r.events.countP isPopulate = 1 ∧
  (∀ (i j : Nat) (hi : i < r.events.length) (hj : j < r.events.length),
    (isLinkBuilt (r.events.get ⟨i, hi⟩) || isSubnetAssigned (r.events.get ⟨i, hi⟩)) = true →
    isPopulate (r.events.get ⟨j, hj⟩) = true → i < j) ∧
  (∀ (i j : Nat) (hi : i < r.events.length) (hj : j < r.events.length),
    isPopulate (r.events.get ⟨i, hi⟩) = true →
    isAppInstalled (r.events.get ⟨j, hj⟩) = true → i < j)

/-- C4 conclusion: every capture event targets either link 0's source-side
device or the last link's destination-side device; both boundary captures
exist when there is at least one link; intermediate links are never
captured. -/
def BoundaryCaptureSpec (c : Config) (r : RunResult) : Prop :=
  (∀ (tag : String) (idx d : Nat),
    Event.pcapEnabled tag idx d ∈ r.events →
    (tag = "src_" ∧ idx = 0 ∧ d = 0) ∨
    (tag = "dst_" ∧ idx = c.links.length - 1 ∧ d = 1)) ∧
  (c.links ≠ [] →
    Event.pcapEnabled "src_" 0 0 ∈ r.events ∧
    Event.pcapEnabled "dst_" (c.links.length - 1) 1 ∈ r.events) ∧
  (∀ (tag : String) (idx d : Nat), 0 < idx → idx < c.links.length - 1 →
    Event.pcapEnabled tag idx d ∉ r.events)

/-- C5 conclusion: node ids record creation order, the source is the first
created node (id 0), the destination the last created node (id n-1), the
bulk sender is installed on the source and the packet sink on the
destination. -/
def RolesSpec (c : Config) (r : RunResult) : Prop :=
  r.nodeIds = List.range c.nodes.length ∧
  r.srcNode = some 0 ∧
  r.dstNode = some (c.nodes.length - 1) ∧
  Event.appInstalled "BulkSend" r.srcNode r.dstAddress sinkPort ∈ r.events ∧
  Event.appInstalled "PacketSink" r.dstNode none sinkPort ∈ r.events

/-- C6 conclusion: the trace opens with exactly the transport-default
snapshot (no further transport defaults are applied later), and every
transport-default event strictly precedes every application-installation
event. -/
def TransportSnapshotSpec (r : RunResult) : Prop :=
  (∃ rest, r.events = transportDefaults ++ rest ∧
    ∀ e ∈ rest, isTransportDefault e = false) ∧
  (∀ (i j : Nat) (hi : i < r.events.length) (hj : j < r.events.length),
    isTransportDefault (r.events.get ⟨i, hi⟩) = true →
    isAppInstalled (r.events.get ⟨j, hj⟩) = true → i < j)

/-- C9 conclusion: the run is independent of the engine RNG seed at entry,
the seed is fixed to the constant 123456789, and the seed-setting event
strictly precedes every node- and link-construction event. -/
def DeterminismSpec (c : Config) : Prop :=
  (∀ s1 s2 : Nat, run c s1 = run c s2) ∧
  (∀ (s : Nat) (r : RunResult), run c s = .ok r →
    r.rngSeed = seedConstant ∧
    Event.setSeed seedConstant ∈ r.events ∧
    (∀ (i j : Nat) (hi : i < r.events.length) (hj : j < r.events.length),
      isSetSeed (r.events.get ⟨i, hi⟩) = true →
      (isNodeCreated (r.events.get ⟨j, hj⟩) || isLinkBuilt (r.events.get ⟨j, hj⟩)) = true →
      i < j))

/-- C10 conclusion: with a single link both boundary captures land on that
link (source-side device 0 and destination-side device 1, the only two
capture events), and the sender targets host 2 of subnet `10.1.0.0`. -/
def SingleLinkSpec (r : RunResult) : Prop :=
  Event.pcapEnabled "src_" 0 0 ∈ r.events ∧
  Event.pcapEnabled "dst_" 0 1 ∈ r.events ∧
  r.events.countP isPcap = 2 ∧
  r.dstAddress = some ⟨"10.1.0.0", 2⟩ ∧
  Event.appInstalled "BulkSend" r.srcNode (some ⟨"10.1.0.0", 2⟩) sinkPort ∈ r.events

/-- C8 conclusion: a duplicate node name makes every run over these nodes
fail with `DuplicateNameError`, independently of the link list (the node
phase aborts before any link is processed); successful runs always have
pairwise-distinct names and a registry holding exactly one entry per
name in declaration order. -/
def DuplicateNameSpec (nodes : List ConfigNode) (s : Nat) : Prop :=
  (∀ ls : List ConfigLink, ∃ name,
    run ⟨nodes, ls⟩ s = .error (.DuplicateNameError name)) ∧
  (∀ (ls ls2 : List ConfigLink) (s2 : Nat), run ⟨nodes, ls⟩ s = run ⟨nodes, ls2⟩ s2) ∧
  (∀ (c : Config) (s2 : Nat) (r : RunResult), run c s2 = .ok r →
    (namesOf c.nodes).Nodup ∧ r.registry = regFrom c.nodes 0)

/-- C7 (amended) conclusion: the driver has no capacity check: it can never
fail with `AddressSpaceExhausted` (its only failure mode is the duplicate
name abort), and every built link — index 256 and beyond included — gets
the unchecked subnet string `10.1.<index>.0`. -/
def NoCapacityCheckSpec (c : Config) (s : Nat) : Prop :=
  run c s ≠ .error .AddressSpaceExhausted ∧
  (∀ e : BuildError, run c s = .error e → ∃ name, e = .DuplicateNameError name) ∧
  (∀ (r : RunResult), run c s = .ok r → ∀ (k : Nat) (hk : k < r.links.length),
    (r.links.get ⟨k, hk⟩).subnet = "10.1." ++ Nat.repr k ++ ".0")

/-- A two-link three-node config, as in the spec examples. -/
def sampleConfig : Config :=
  ⟨[⟨"sat1"⟩, ⟨"sat2"⟩, ⟨"sat3"⟩],
   [⟨"sat1", "sat2", "5Mbps", "10ms"⟩, ⟨"sat2", "sat3", "5Mbps", "10ms"⟩]⟩

/-- The spec example with two nodes and one link. -/
def singleLinkConfig : Config :=
  ⟨[⟨"sat1"⟩, ⟨"sat2"⟩], [⟨"sat1", "sat2", "5Mbps", "10ms"⟩]⟩

/-- A config whose only link references the undeclared node name "B". -/
def missingEndpointConfig : Config :=
  ⟨[⟨"A"⟩], [⟨"A", "B", "5Mbps", "10ms"⟩]⟩

/-- A config with 257 links, one more than the 256-subnet third-octet range. -/
def manyLinksConfig : Config :=
  ⟨[⟨"A"⟩, ⟨"B"⟩], List.replicate 257 ⟨"A", "B", "5Mbps", "10ms"⟩⟩

/-- A node list declaring the same name twice. -/
def dupNodes : List ConfigNode := [⟨"sat1"⟩, ⟨"sat1"⟩]

/-- A vacuous run result, used as the default of `okOr`. -/
def emptyResult : RunResult := ⟨[], [], none, none, [], none, none, 0, []⟩

/-- Extract the result of a successful run, with a default for failure. -/
def okOr (x : Except BuildError RunResult) (d : RunResult) : RunResult :=
  match x with
  | .ok r => r
  | .error _ => d

/-- The result of running the two-link sample config. -/
def sampleResult : RunResult := okOr (run sampleConfig 0) emptyResult

/-- The result of running the one-link config. -/
def singleLinkResult : RunResult := okOr (run singleLinkConfig 0) emptyResult

theorem namesAdd_ok {reg reg' : Registry} {name : String} {id : Nat}
    (h : namesAdd reg name id = .ok reg') :
    findName reg name = none ∧ reg' = reg ++ [(name, id)] := by
  unfold namesAdd at h
  cases hf : findName reg name <;> rw [hf] at h
  · exact ⟨rfl, (Except.ok.inj h).symm⟩
  · exact absurd h (by simp)

theorem buildNodesAux_ok (total : Nat) :
    ∀ (specs : List ConfigNode) (i : Nat) (st np : NodePhase),
      buildNodesAux total specs i st = .ok np →
      np.events = st.events ++ nodeEventsFrom specs i ∧
      np.registry = st.registry ++ regFrom specs i ∧
      np.nodeIds = st.nodeIds ++ List.range' i specs.length ∧
      np.srcNode = (if specs.length ≠ 0 ∧ i = 0 then some 0 else st.srcNode) ∧
      np.dstNode = (if specs.length ≠ 0 ∧ i ≤ total - 1 ∧ total - 1 < i + specs.length
                    then some (total - 1) else st.dstNode) := by
  intro specs
  induction specs with
  | nil =>
    intro i st np h
    simp only [buildNodesAux] at h
    cases h
    simp [nodeEventsFrom, regFrom, List.range']
  | cons spec rest ih =>
    intro i st np h
    simp only [buildNodesAux] at h
    cases hadd : namesAdd st.registry spec.name i <;> rw [hadd] at h
    · exact absurd h (by simp)
    next reg =>
      obtain ⟨-, hreg⟩ := namesAdd_ok hadd
      obtain ⟨he, hr, hn, hs, hd⟩ := ih (i + 1) _ np h
      refine ⟨?_, ?_, ?_, ?_, ?_⟩
      · simpa [nodeEventsFrom] using he
      · rw [hr, hreg]; simp [regFrom]
      · rw [hn]; simp only [List.length_cons]
        rw [List.range'_succ i rest.length 1]
        simp
      · rw [hs]; dsimp only
        simp only [List.length_cons]
        rw [if_neg (by omega)]
        by_cases hi : i = 0
        · rw [if_pos hi, if_pos (by omega), hi]
        · rw [if_neg hi, if_neg (by omega)]
      · rw [hd]; dsimp only
        simp only [List.length_cons]
        by_cases hA : i = total - 1
        · rw [if_neg (by omega), if_pos hA, if_pos (by omega), hA]
        · rw [if_neg hA]
          by_cases hC : i ≤ total - 1 ∧ total - 1 < i + (rest.length + 1)
          · rw [if_pos (by omega), if_pos (by omega)]
          · rw [if_neg (by omega), if_neg (by omega)]

theorem buildNodesAux_error (total : Nat) :
    ∀ (specs : List ConfigNode) (i : Nat) (st : NodePhase) (e : BuildError),
      buildNodesAux total specs i st = .error e →
      ∃ name, e = .DuplicateNameError name := by
  intro specs
  induction specs with
  | nil => intro i st e h; simp [buildNodesAux] at h
  | cons spec rest ih =>
    intro i st e h
    simp only [buildNodesAux] at h
    cases hadd : namesAdd st.registry spec.name i <;> rw [hadd] at h
    next e' =>
      unfold namesAdd at hadd
      cases hf : findName st.registry spec.name <;> rw [hf] at hadd
      · exact absurd hadd (by simp)
      · cases h; cases hadd; exact ⟨spec.name, rfl⟩
    next reg => exact ih (i + 1) _ e h

theorem findName_append_singleton (reg : Registry) (k n : String) (v : Nat) :
    findName (reg ++ [(k, v)]) n = none ↔ findName reg n = none ∧ k ≠ n := by
  induction reg with
  | nil => by_cases hk : k = n <;> simp [findName, hk]
  | cons p rest ih =>
    obtain ⟨pk, pv⟩ := p
    by_cases hpk : pk = n <;> simp [findName, hpk, ih]

theorem buildNodesAux_ok_nodup (total : Nat) :
    ∀ (specs : List ConfigNode) (i : Nat) (st np : NodePhase),
      buildNodesAux total specs i st = .ok np →
      (∀ n ∈ namesOf specs, findName st.registry n = none) ∧ (namesOf specs).Nodup := by
  intro specs
  induction specs with
  | nil => intro i st np _; simp [namesOf]
  | cons spec rest ih =>
    intro i st np h
    simp only [buildNodesAux] at h
    cases hadd : namesAdd st.registry spec.name i <;> rw [hadd] at h
    · exact absurd h (by simp)
    next reg =>
      obtain ⟨hfresh, hreg⟩ := namesAdd_ok hadd
      obtain ⟨hall, hnd⟩ := ih (i + 1) _ np h
      simp only [hreg] at hall
      have hall' : ∀ n ∈ namesOf rest, findName st.registry n = none ∧ spec.name ≠ n :=
        fun n hn => (findName_append_singleton st.registry spec.name n i).mp (hall n hn)
      constructor
      · intro n hn
        simp only [namesOf, List.map_cons, List.mem_cons] at hn
        rcases hn with hn | hn
        · rw [hn]; exact hfresh
        · exact (hall' n hn).1
      · simp only [namesOf, List.map_cons, List.nodup_cons]
        exact ⟨fun hmem => (hall' spec.name hmem).2 rfl, hnd⟩

theorem buildLinksAux_eq (reg : Registry) (total : Nat) :
    ∀ (specs : List ConfigLink) (i : Nat) (st : LinkPhase),
      (buildLinksAux reg total specs i st).links
          = st.links ++ linkInfosFrom reg specs i st.linkCounter ∧
      (buildLinksAux reg total specs i st).srcAddress
          = (if specs.length ≠ 0 ∧ i = 0
             then some ⟨subnetString st.linkCounter, 1⟩ else st.srcAddress) ∧
      (buildLinksAux reg total specs i st).dstAddress
          = (if specs.length ≠ 0 ∧ i ≤ total - 1 ∧ total - 1 < i + specs.length
             then some ⟨subnetString (st.linkCounter + (total - 1 - i)), 2⟩
             else st.dstAddress) ∧
      (buildLinksAux reg total specs i st).linkCounter = st.linkCounter + specs.length ∧
      (buildLinksAux reg total specs i st).events
          = st.events ++ linkEventsFrom reg total specs i st.linkCounter := by
  intro specs
  induction specs with
  | nil =>
    intro i st
    simp [buildLinksAux, linkInfosFrom, linkEventsFrom]
  | cons spec rest ih =>
    intro i st
    simp only [buildLinksAux, List.length_cons]
    obtain ⟨h1, h2, h3, h4, h5⟩ := ih (i + 1) (linkStep reg total spec i st)
    refine ⟨?_, ?_, ?_, ?_, ?_⟩
    · rw [h1]; simp [linkStep, linkInfosFrom, mkLinkInfo]
    · rw [h2]; simp only [linkStep]
      rw [if_neg (by omega)]
      by_cases hi : i = 0
      · rw [if_pos hi, if_pos (by omega)]
      · rw [if_neg hi, if_neg (by omega)]
    · rw [h3]; simp only [linkStep]
      by_cases hA : i = total - 1
      · rw [if_neg (by omega), if_pos hA, if_pos (by omega)]
        have harith : st.linkCounter + (total - 1 - i) = st.linkCounter := by omega
        rw [harith]
      · rw [if_neg hA]
        by_cases hC : i ≤ total - 1 ∧ total - 1 < i + (rest.length + 1)
        · have harith : st.linkCounter + 1 + (total - 1 - (i + 1)) =
              st.linkCounter + (total - 1 - i) := by omega
          rw [if_pos (by omega), harith, if_pos (by omega)]
        · rw [if_neg (by omega), if_neg (by omega)]
    · rw [h4]; simp only [linkStep]; omega
    · rw [h5]; simp [linkStep, linkEventsFrom, linkBlock]

/-- Full characterization of a successful `run`: name uniqueness, the
registry, node ids in creation order, the positional roles, the built
links, the boundary addresses, the seed, and the complete event trace. -/
theorem run_ok_spec (c : Config) (s : Nat) (r : RunResult) (h : run c s = .ok r) :
    (namesOf c.nodes).Nodup ∧
    r.registry = regFrom c.nodes 0 ∧
    r.nodeIds = List.range c.nodes.length ∧
    r.srcNode = (if c.nodes.length ≠ 0 then some 0 else none) ∧
    r.dstNode = (if c.nodes.length ≠ 0 then some (c.nodes.length - 1) else none) ∧
    r.links = linkInfosFrom (regFrom c.nodes 0) c.links 0 0 ∧
    r.srcAddress = (if c.links.length ≠ 0 then some ⟨subnetString 0, 1⟩ else none) ∧
    r.dstAddress = (if c.links.length ≠ 0
                    then some ⟨subnetString (c.links.length - 1), 2⟩ else none) ∧
    r.rngSeed = seedConstant ∧
    r.events = transportDefaults ++ [.setSeed seedConstant] ++ nodeEventsFrom c.nodes 0 ++
      [.installStack] ++
      linkEventsFrom (regFrom c.nodes 0) c.links.length c.links 0 0 ++
      [.populateRoutingTables,
       .appInstalled "BulkSend" r.srcNode r.dstAddress sinkPort,
       .appInstalled "PacketSink" r.dstNode none sinkPort,
       .appStart "PacketSink" 0,
       .appStart "BulkSend" 0,
       .simStop 60] := by
  simp only [run] at h
  cases hb : buildNodesAux c.nodes.length c.nodes 0
      ⟨[], [], none, none, transportDefaults ++ [Event.setSeed seedConstant]⟩ <;>
    rw [hb] at h
  · exact absurd h (by simp)
  next np =>
    obtain ⟨he, hr, hn, hs, hd⟩ := buildNodesAux_ok _ _ _ _ _ hb
    have hnd := (buildNodesAux_ok_nodup _ _ _ _ _ hb).2
    obtain ⟨l1, l2, l3, l4, l5⟩ := buildLinksAux_eq np.registry c.links.length c.links 0
      ⟨[], none, none, 0, np.events ++ [Event.installStack]⟩
    have hrr : r = _ := (Except.ok.inj h).symm
    subst hrr
    dsimp only at he hr hn hs hd l1 l2 l3 l4 l5 ⊢
    have hreg : np.registry = regFrom c.nodes 0 := by simpa using hr
    refine ⟨hnd, hreg, ?_, ?_, ?_, ?_, ?_, ?_, rfl, ?_⟩
    · rw [hn]; simp [List.range_eq_range']
    · rw [hs]; by_cases hlen : c.nodes.length = 0 <;> simp [hlen]
    · rw [hd]; by_cases hlen : c.nodes.length = 0
      · simp [hlen]
      · rw [if_pos (by omega), if_pos hlen]
    · rw [l1, hreg]; simp
    · rw [l2]; by_cases hlen : c.links.length = 0 <;> simp [hlen]
    · rw [l3]; by_cases hlen : c.links.length = 0
      · simp [hlen]
      · rw [if_pos (by omega), if_pos hlen]
        have harith : 0 + (c.links.length - 1 - 0) = c.links.length - 1 := by omega
        rw [harith]
    · rw [l5, hreg, he]

/-! ## Injectivity of the decimal rendering used for subnet strings -/

theorem charDigitVal_digitChar : ∀ m, m < 10 → charDigitVal (Nat.digitChar m) = m := by
  decide

theorem toDigitsCore_val (fuel : Nat) :
    ∀ (n : Nat) (ds : List Char), n < fuel →
      decimalVal (Nat.toDigitsCore 10 fuel n ds) = n * 10 ^ ds.length + decimalVal ds := by
  induction fuel with
  | zero => intro n ds h; exact absurd h (Nat.not_lt_zero n)
  | succ f ih =>
    intro n ds h
    simp only [Nat.toDigitsCore]
    by_cases h10 : n / 10 = 0
    · rw [if_pos h10]
      simp only [decimalVal]
      rw [charDigitVal_digitChar (n % 10) (by omega)]
      have hmod : n % 10 = n := by omega
      rw [hmod]
    · rw [if_neg h10]
      rw [ih (n / 10) (Nat.digitChar (n % 10) :: ds) (by omega)]
      simp only [decimalVal, List.length_cons]
      rw [charDigitVal_digitChar (n % 10) (by omega)]
      rw [pow_succ]
      generalize 10 ^ ds.length = k
      have hsum : n / 10 * (k * 10) + (n % 10 * k + decimalVal ds)
          = (10 * (n / 10) + n % 10) * k + decimalVal ds := by ring
      rw [hsum, Nat.div_add_mod]

theorem decimalVal_toDigits (n : Nat) : decimalVal (Nat.toDigits 10 n) = n := by
  unfold Nat.toDigits
  rw [toDigitsCore_val (n + 1) n [] (Nat.lt_succ_self n)]
  simp [decimalVal]

theorem repr_inj {m n : Nat} (h : Nat.repr m = Nat.repr n) : m = n := by
  have hd : Nat.toDigits 10 m = Nat.toDigits 10 n := by
    have hdata := congrArg String.data h
    simpa [Nat.repr, List.asString] using hdata
  have hv := congrArg decimalVal hd
  rwa [decimalVal_toDigits, decimalVal_toDigits] at hv

theorem string_data_append (s t : String) : (s ++ t).data = s.data ++ t.data := by
  cases s; cases t; rfl

theorem subnetString_inj {a b : Nat} (h : subnetString a = subnetString b) : a = b := by
  apply repr_inj
  have hd := congrArg String.data h
  simp only [subnetString, string_data_append] at hd
  rw [List.append_assoc, List.append_assoc] at hd
  have h1 := List.append_cancel_left hd
  exact String.ext (List.append_cancel_right h1)

/-! ## Shape of the built link list -/

theorem length_linkInfosFrom (reg : Registry) :
    ∀ (specs : List ConfigLink) (i counter : Nat),
      (linkInfosFrom reg specs i counter).length = specs.length := by
  intro specs
  induction specs with
  | nil => intro i counter; rfl
  | cons spec rest ih => intro i counter; simp [linkInfosFrom, ih]

theorem get_linkInfosFrom (reg : Registry) :
    ∀ (specs : List ConfigLink) (i counter k : Nat)
      (hk : k < (linkInfosFrom reg specs i counter).length)
      (hk' : k < specs.length),
      (linkInfosFrom reg specs i counter).get ⟨k, hk⟩
        = mkLinkInfo reg (specs.get ⟨k, hk'⟩) (i + k) (counter + k) := by
  intro specs
  induction specs with
  | nil => intro i counter k hk hk'; exact absurd hk' (Nat.not_lt_zero k)
  | cons spec rest ih =>
    intro i counter k hk hk'
    cases k with
    | zero => simp [linkInfosFrom]
    | succ k' =>
      have hk2 : k' < (linkInfosFrom reg rest (i + 1) (counter + 1)).length := by
        rw [length_linkInfosFrom]
        simpa using hk'
      have step : (linkInfosFrom reg (spec :: rest) i counter).get ⟨k' + 1, hk⟩
          = (linkInfosFrom reg rest (i + 1) (counter + 1)).get ⟨k', hk2⟩ := by
        simp [linkInfosFrom]
      rw [step, ih (i + 1) (counter + 1) k' hk2 (by simpa using hk')]
      have e1 : i + 1 + k' = i + (k' + 1) := by omega
      have e2 : counter + 1 + k' = counter + (k' + 1) := by omega
      rw [e1, e2]
      have e3 : (rest.get ⟨k', by simpa using hk'⟩) = ((spec :: rest).get ⟨k' + 1, hk'⟩) := by
        simp
      rw [e3]

/-! ## Event classifiers and trace-chunk lemmas -/

theorem mem_nodeEventsFrom {e : Event} :
    ∀ (specs : List ConfigNode) (i : Nat),
      e ∈ nodeEventsFrom specs i → isNodeCreated e = true := by
  intro specs
  induction specs with
  | nil => intro i h; simp [nodeEventsFrom] at h
  | cons spec rest ih =>
    intro i h
    simp only [nodeEventsFrom, List.mem_cons] at h
    rcases h with h | h
    · rw [h]; rfl
    · exact ih _ h

theorem mem_ite_nil {α : Type} {e x : α} {c : Prop} [Decidable c]
    (h : e ∈ (if c then [x] else [])) : e = x ∧ c := by
  split at h
  · simp only [List.mem_singleton] at h; exact ⟨h, by assumption⟩
  · simp at h

theorem mem_linkBlock {e : Event} {reg : Registry} {total : Nat} {spec : ConfigLink}
    {i counter : Nat} (h : e ∈ linkBlock reg total spec i counter) :
    e = .linkBuilt i (findName reg spec.source) (findName reg spec.target) ∨
    e = .subnetAssigned i (subnetString counter) subnetMask ∨
    (e = .pcapEnabled "src_" i 0 ∧ i = 0) ∨
    (e = .pcapEnabled "dst_" i 1 ∧ i = total - 1) := by
  unfold linkBlock at h
  rcases List.mem_append.mp h with h | h
  · rcases List.mem_append.mp h with h | h
    · rcases List.mem_cons.mp h with h | h
      · exact Or.inl h
      · rcases List.mem_cons.mp h with h | h
        · exact Or.inr (Or.inl h)
        · simp at h
    · exact Or.inr (Or.inr (Or.inl (mem_ite_nil h)))
  · exact Or.inr (Or.inr (Or.inr (mem_ite_nil h)))

theorem mem_linkEventsFrom {e : Event} (reg : Registry) (total : Nat) :
    ∀ (specs : List ConfigLink) (i counter : Nat),
      e ∈ linkEventsFrom reg total specs i counter →
      isLinkBuilt e = true ∨ isSubnetAssigned e = true ∨ isPcap e = true := by
  intro specs
  induction specs with
  | nil => intro i counter h; simp [linkEventsFrom] at h
  | cons spec rest ih =>
    intro i counter h
    simp only [linkEventsFrom, List.mem_append] at h
    rcases h with h | h
    · rcases mem_linkBlock h with h | h | ⟨h, -⟩ | ⟨h, -⟩ <;> rw [h] <;> simp [isLinkBuilt, isSubnetAssigned, isPcap]
    · exact ih _ _ h

theorem pcap_mem_linkEventsFrom {reg : Registry} {total : Nat} :
    ∀ (specs : List ConfigLink) (i counter : Nat) (tag : String) (idx d : Nat),
      Event.pcapEnabled tag idx d ∈ linkEventsFrom reg total specs i counter →
      (tag = "src_" ∧ idx = 0 ∧ d = 0) ∨ (tag = "dst_" ∧ idx = total - 1 ∧ d = 1) := by
  intro specs
  induction specs with
  | nil => intro i counter tag idx d h; simp [linkEventsFrom] at h
  | cons spec rest ih =>
    intro i counter tag idx d h
    simp only [linkEventsFrom, List.mem_append] at h
    rcases h with h | h
    · rcases mem_linkBlock h with h | h | ⟨h, hc⟩ | ⟨h, hc⟩
      · exact absurd h (by simp)
      · exact absurd h (by simp)
      · cases h; exact Or.inl ⟨rfl, hc, rfl⟩
      · cases h; exact Or.inr ⟨rfl, hc, rfl⟩
    · exact ih _ _ _ _ _ h

theorem pcap_src_mem_linkEventsFrom {reg : Registry} {total : Nat} :
    ∀ (specs : List ConfigLink) (counter : Nat), specs ≠ [] →
      Event.pcapEnabled "src_" 0 0 ∈ linkEventsFrom reg total specs 0 counter := by
  intro specs counter hne
  cases specs with
  | nil => exact absurd rfl hne
  | cons spec rest =>
    simp only [linkEventsFrom, List.mem_append]
    exact Or.inl (by simp [linkBlock])

theorem pcap_dst_mem_linkEventsFrom {reg : Registry} {total : Nat} :
    ∀ (specs : List ConfigLink) (i counter : Nat), i + specs.length = total →
      specs ≠ [] →
      Event.pcapEnabled "dst_" (total - 1) 1 ∈ linkEventsFrom reg total specs i counter := by
  intro specs
  induction specs with
  | nil => intro i counter _ hne; exact absurd rfl hne
  | cons spec rest ih =>
    intro i counter hlen _
    simp only [linkEventsFrom, List.mem_append]
    cases rest with
    | nil =>
      have hi : i = total - 1 := by simp at hlen; omega
      refine Or.inl ?_
      unfold linkBlock
      refine List.mem_append.mpr (Or.inr ?_)
      rw [if_pos hi, hi]
      simp
    | cons spec2 rest2 =>
      refine Or.inr (ih (i + 1) (counter + 1) (by simp at hlen ⊢; omega) (by simp))

/-- Events strictly of one class precede events strictly of another when the
trace splits into a prefix free of the second class and a suffix free of the
first. -/
theorem ordered_of_split {α : Type} (l l1 l2 : List α) (P Q : α → Bool)
    (hsplit : l = l1 ++ l2)
    (hP : ∀ e ∈ l2, P e = false) (hQ : ∀ e ∈ l1, Q e = false) :
    ∀ (i j : Nat) (hi : i < l.length) (hj : j < l.length),
      P (l.get ⟨i, hi⟩) = true → Q (l.get ⟨j, hj⟩) = true → i < j := by
  subst hsplit
  intro i j hi hj hPi hQj
  rw [List.get_eq_getElem] at hPi hQj
  have hi1 : i < l1.length := by
    by_contra hge
    push_neg at hge
    have hb2 : i - l1.length < l2.length := by
      have hlen := List.length_append l1 l2
      omega
    rw [List.getElem_append_right hge] at hPi
    have hfalse : P (l2.get ⟨i - l1.length, hb2⟩) = false :=
      hP _ (List.get_mem l2 _ hb2)
    rw [List.get_eq_getElem] at hfalse
    exact Bool.noConfusion (hPi.symm.trans hfalse)
  have hj1 : l1.length ≤ j := by
    by_contra hlt
    push_neg at hlt
    rw [List.getElem_append_left hlt] at hQj
    have hfalse : Q (l1.get ⟨j, hlt⟩) = false := hQ _ (List.get_mem l1 _ hlt)
    rw [List.get_eq_getElem] at hfalse
    exact Bool.noConfusion (hQj.symm.trans hfalse)
  omega

/-! ## Failure behavior of `run` -/

theorem run_error (c : Config) (s : Nat) (e : BuildError) (h : run c s = .error e) :
    ∃ name, e = .DuplicateNameError name := by
  simp only [run] at h
  cases hb : buildNodesAux c.nodes.length c.nodes 0
      ⟨[], [], none, none, transportDefaults ++ [Event.setSeed seedConstant]⟩ <;>
    rw [hb] at h
  next e' =>
    have he' : e' = e := by
      have := h
      simp only [] at this
      exact Except.error.inj this
    exact he' ▸ buildNodesAux_error _ _ _ _ _ hb
  next np => exact absurd h (by simp)

theorem run_error_links_irrelevant (c c' : Config) (hnodes : c'.nodes = c.nodes)
    (s s' : Nat) (e : BuildError)
    (h : run c s = .error e) : run c' s' = .error e := by
  simp only [run] at h ⊢
  rw [hnodes]
  cases hb : buildNodesAux c.nodes.length c.nodes 0
      ⟨[], [], none, none, transportDefaults ++ [Event.setSeed seedConstant]⟩ <;>
    rw [hb] at h
  · exact h
  · exact absurd h (by simp)

theorem run_dup_fails (nodes : List ConfigNode) (ls : List ConfigLink) (s : Nat)
    (hdup : ¬ (namesOf nodes).Nodup) :
    ∃ name, run ⟨nodes, ls⟩ s = .error (.DuplicateNameError name) := by
  cases hrun : run ⟨nodes, ls⟩ s with
  | ok r => exact absurd (run_ok_spec _ _ _ hrun).1 hdup
  | error e =>
    obtain ⟨n, hn⟩ := run_error _ _ _ hrun
    exact ⟨n, by rw [← hn]⟩

/-! ## Classification of the trace chunks -/

theorem transport_class (e : Event) (h : e ∈ transportDefaults) :
    isPopulate e = false ∧ isAppInstalled e = false ∧ isSetSeed e = false ∧
    isNodeCreated e = false ∧ isLinkBuilt e = false ∧ isPcap e = false := by
  simp only [transportDefaults, List.mem_cons, List.not_mem_nil, or_false] at h
  rcases h with h | h | h | h <;> subst h <;> exact ⟨rfl, rfl, rfl, rfl, rfl, rfl⟩

theorem nodeEventsFrom_class {e : Event} (specs : List ConfigNode) (i : Nat)
    (h : e ∈ nodeEventsFrom specs i) :
    isNodeCreated e = true ∧ isPopulate e = false ∧ isAppInstalled e = false ∧
    isSetSeed e = false ∧ isLinkBuilt e = false ∧ isPcap e = false ∧
    isTransportDefault e = false := by
  have hn := mem_nodeEventsFrom specs i h
  cases e <;> simp_all [isNodeCreated, isPopulate, isAppInstalled, isSetSeed,
    isLinkBuilt, isPcap, isTransportDefault]

theorem linkEventsFrom_class {e : Event} (reg : Registry) (total : Nat)
    (specs : List ConfigLink) (i counter : Nat)
    (h : e ∈ linkEventsFrom reg total specs i counter) :
    isPopulate e = false ∧ isAppInstalled e = false ∧ isSetSeed e = false ∧
    isNodeCreated e = false ∧ isTransportDefault e = false := by
  rcases mem_linkEventsFrom reg total specs i counter h with h1 | h1 | h1 <;>
    cases e <;> simp_all [isLinkBuilt, isSubnetAssigned, isPcap, isPopulate,
      isAppInstalled, isSetSeed, isNodeCreated, isTransportDefault]

theorem appTail_class (e : Event) (src dst : Option Nat) (da : Option HostAddr)
    (h : e ∈ [Event.appInstalled "BulkSend" src da sinkPort,
              Event.appInstalled "PacketSink" dst none sinkPort,
              Event.appStart "PacketSink" 0, Event.appStart "BulkSend" 0,
              Event.simStop 60]) :
    isPopulate e = false ∧ isLinkBuilt e = false ∧ isSetSeed e = false ∧
    isNodeCreated e = false ∧ isTransportDefault e = false ∧ isPcap e = false ∧
    isSubnetAssigned e = false := by
  simp only [List.mem_cons, List.not_mem_nil, or_false] at h
  rcases h with h | h | h | h | h <;> subst h <;> exact ⟨rfl, rfl, rfl, rfl, rfl, rfl, rfl⟩

/-! ## The claims -/

/-- C1: for every valid config, the link at zero-based creation index i is
assigned subnet `10.1.i.0` with mask `255.255.255.0`, no two links share a
subnet, the indices are contiguous from 0, and within each subnet the
source endpoint receives the first host address and the target endpoint
the second, in (source, target) order. -/
theorem claim1_subnet_allocation (c : Config) (s : Nat) (r : RunResult)
    (h : run c s = .ok r) : SubnetAllocationSpec c r := by
  obtain ⟨-, -, -, -, -, hlinks, -, -, -, -⟩ := run_ok_spec c s r h
  unfold SubnetAllocationSpec
  rw [hlinks]
  refine ⟨length_linkInfosFrom _ _ _ _, ?_, ?_⟩
  · intro k hk
    have hk' : k < c.links.length := by rwa [length_linkInfosFrom] at hk
    rw [get_linkInfosFrom _ _ _ _ _ hk hk']
    refine ⟨Nat.zero_add k, ?_, rfl, rfl, rfl⟩
    show subnetString (0 + k) = _
    rw [Nat.zero_add]
    rfl
  · intro k j hk hj hne heq
    rw [get_linkInfosFrom _ _ _ _ _ hk (by rwa [length_linkInfosFrom] at hk),
        get_linkInfosFrom _ _ _ _ _ hj (by rwa [length_linkInfosFrom] at hj)] at heq
    have hkj := subnetString_inj heq
    omega

theorem claim1_subnet_allocation_witness :
    run sampleConfig 0 = .ok sampleResult ∧
    SubnetAllocationSpec sampleConfig sampleResult :=
  ⟨rfl, claim1_subnet_allocation sampleConfig 0 sampleResult rfl⟩

/-- C3: evaluating the driver at the failing input — a config whose only
link references the undeclared node name "B" — shows the build does not
abort with a `ReferenceError` (or any error): it succeeds, and the null
handle returned by the name lookup is silently wired into the link as
its target endpoint. -/
theorem claim3_null_endpoint_wired :
    (run missingEndpointConfig 0).map (fun r => r.links.map LinkInfo.target)
      = .ok [none] ∧
    (run missingEndpointConfig 0).isOk = true :=
  ⟨rfl, rfl⟩

set_option maxRecDepth 100000 in
/-- C7 counterexample: a config with 257 links — exceeding the 256-subnet
third-octet range — does not make the build fail at all; in particular it
never fails with `AddressSpaceExhausted`. -/
theorem claim7_counterexample :
    manyLinksConfig.links.length = 257 ∧
    (run manyLinksConfig 0).isOk = true ∧
    run manyLinksConfig 0 ≠ .error .AddressSpaceExhausted := by
  refine ⟨rfl, rfl, ?_⟩
  intro h
  have hok : (run manyLinksConfig 0).isOk = true := rfl
  rw [h] at hok
  exact Bool.noConfusion hok

/-- C7 amended: the driver performs no capacity check.  No run can fail
with `AddressSpaceExhausted` — the only failure mode is the duplicate-name
abort — and every built link, index 256 and beyond included, receives the
unchecked subnet string `10.1.<index>.0`. -/
theorem claim7_no_capacity_check (c : Config) (s : Nat) : NoCapacityCheckSpec c s := by
  have herr : ∀ e : BuildError, run c s = .error e →
      ∃ name, e = .DuplicateNameError name :=
    fun e he => run_error c s e he
  refine ⟨?_, herr, ?_⟩
  · intro h
    obtain ⟨name, hn⟩ := herr _ h
    exact absurd hn (by simp)
  · intro r hr k
    obtain ⟨-, -, -, -, -, hlinks, -, -, -, -⟩ := run_ok_spec c s r hr
    rw [hlinks]
    intro hk
    have hk' : k < c.links.length := by rwa [length_linkInfosFrom] at hk
    rw [get_linkInfosFrom _ _ _ _ _ hk hk']
    show subnetString (0 + k) = _
    rw [Nat.zero_add]
    rfl

/-- C8: a config declaring the same node name twice fails the build with
`DuplicateNameError` during the node phase — before and independently of
any link processing — and a name collision is never resolved by
overwriting: every successful run has pairwise-distinct names and one
registry entry per name. -/
theorem claim8_duplicate_name (nodes : List ConfigNode) (s : Nat)
    (hdup : ¬ (namesOf nodes).Nodup) : DuplicateNameSpec nodes s := by
  refine ⟨fun ls => run_dup_fails nodes ls s hdup, ?_, ?_⟩
  · intro ls ls2 s2
    obtain ⟨n, hn⟩ := run_dup_fails nodes ls s hdup
    have h2 := run_error_links_irrelevant ⟨nodes, ls⟩ ⟨nodes, ls2⟩ rfl s s2 _ hn
    rw [hn, h2]
  · intro c s2 r h
    obtain ⟨h1, h2, -⟩ := run_ok_spec c s2 r h
    exact ⟨h1, h2⟩

theorem claim8_duplicate_name_witness :
    ¬ (namesOf dupNodes).Nodup ∧ DuplicateNameSpec dupNodes 0 :=
  ⟨by decide, claim8_duplicate_name dupNodes 0 (by decide)⟩

theorem front_no_populate_no_app (c : Config) :
    ∀ e ∈ transportDefaults ++ [Event.setSeed seedConstant] ++ nodeEventsFrom c.nodes 0 ++
        [Event.installStack] ++
        linkEventsFrom (regFrom c.nodes 0) c.links.length c.links 0 0,
      isPopulate e = false ∧ isAppInstalled e = false := by
  intro e he
  simp only [List.mem_append] at he
  rcases he with (((he | he) | he) | he) | he
  · obtain ⟨h1, h2, -⟩ := transport_class e he
    exact ⟨h1, h2⟩
  · simp only [List.mem_singleton] at he; subst he; exact ⟨rfl, rfl⟩
  · obtain ⟨-, h1, h2, -⟩ := nodeEventsFrom_class _ _ he
    exact ⟨h1, h2⟩
  · simp only [List.mem_singleton] at he; subst he; exact ⟨rfl, rfl⟩
  · obtain ⟨h1, h2, -⟩ := linkEventsFrom_class _ _ _ _ _ he
    exact ⟨h1, h2⟩

/-- C2: in every successful run, routing-table population is invoked
exactly once, strictly after the last link-construction event and
strictly before the sender and receiver applications are installed. -/
theorem claim2_routing_once (c : Config) (s : Nat) (r : RunResult)
    (h : run c s = .ok r) : RoutingOnceSpec r := by
  obtain ⟨-, -, -, -, -, -, -, -, -, hev⟩ := run_ok_spec c s r h
  refine ⟨?_, ?_, ?_⟩
  · rw [hev]
    simp only [List.countP_append]
    rw [show (nodeEventsFrom c.nodes 0).countP isPopulate = 0 from
          List.countP_eq_zero.mpr (fun e he => by
            rw [(nodeEventsFrom_class _ _ he).2.1]; simp),
        show (linkEventsFrom (regFrom c.nodes 0) c.links.length c.links 0 0).countP
            isPopulate = 0 from
          List.countP_eq_zero.mpr (fun e he => by
            rw [(linkEventsFrom_class _ _ _ _ _ he).1]; simp)]
    rfl
  · apply ordered_of_split r.events
      (transportDefaults ++ [Event.setSeed seedConstant] ++ nodeEventsFrom c.nodes 0 ++
        [Event.installStack] ++
        linkEventsFrom (regFrom c.nodes 0) c.links.length c.links 0 0)
      [Event.populateRoutingTables,
       Event.appInstalled "BulkSend" r.srcNode r.dstAddress sinkPort,
       Event.appInstalled "PacketSink" r.dstNode none sinkPort,
       Event.appStart "PacketSink" 0, Event.appStart "BulkSend" 0,
       Event.simStop 60]
      (fun e => isLinkBuilt e || isSubnetAssigned e) isPopulate hev ?_ ?_
    · intro e he
      rcases List.mem_cons.mp he with he | he
      · subst he; rfl
      · obtain ⟨-, h2, -, -, -, -, h7⟩ := appTail_class e _ _ _ he
        show (isLinkBuilt e || isSubnetAssigned e) = false
        rw [h2, h7]
        rfl
    · exact fun e he => (front_no_populate_no_app c e he).1
  · have hsplit : r.events =
        (transportDefaults ++ [Event.setSeed seedConstant] ++ nodeEventsFrom c.nodes 0 ++
         [Event.installStack] ++
         linkEventsFrom (regFrom c.nodes 0) c.links.length c.links 0 0 ++
         [Event.populateRoutingTables]) ++
        [Event.appInstalled "BulkSend" r.srcNode r.dstAddress sinkPort,
         Event.appInstalled "PacketSink" r.dstNode none sinkPort,
         Event.appStart "PacketSink" 0, Event.appStart "BulkSend" 0,
         Event.simStop 60] := by
      rw [hev]; simp [List.append_assoc]
    apply ordered_of_split r.events _ _ isPopulate isAppInstalled hsplit ?_ ?_
    · exact fun e he => (appTail_class e _ _ _ he).1
    · intro e he
      rcases List.mem_append.mp he with he | he
      · exact (front_no_populate_no_app c e he).2
      · simp only [List.mem_singleton] at he; subst he; rfl

theorem claim2_routing_once_witness :
    run sampleConfig 0 = .ok sampleResult ∧ RoutingOnceSpec sampleResult :=
  ⟨rfl, claim2_routing_once sampleConfig 0 sampleResult rfl⟩

/-- C4: packet capture is enabled only on the first link's source-side
device and the last link's destination-side device; both boundary captures
are present whenever there is at least one link, and intermediate links
are never captured. -/
theorem claim4_boundary_capture (c : Config) (s : Nat) (r : RunResult)
    (h : run c s = .ok r) : BoundaryCaptureSpec c r := by
  obtain ⟨-, -, -, -, -, -, -, -, -, hev⟩ := run_ok_spec c s r h
  have hfwd : ∀ (tag : String) (idx d : Nat),
      Event.pcapEnabled tag idx d ∈ r.events →
      (tag = "src_" ∧ idx = 0 ∧ d = 0) ∨
      (tag = "dst_" ∧ idx = c.links.length - 1 ∧ d = 1) := by
    intro tag idx d hm
    rw [hev] at hm
    simp only [List.mem_append] at hm
    rcases hm with ((((hm | hm) | hm) | hm) | hm) | hm
    · have hc := (transport_class _ hm).2.2.2.2.2
      simp [isPcap] at hc
    · simp at hm
    · have hc := (nodeEventsFrom_class _ _ hm).1
      simp [isNodeCreated] at hc
    · simp at hm
    · exact pcap_mem_linkEventsFrom _ _ _ _ _ _ hm
    · simp at hm
  refine ⟨hfwd, ?_, ?_⟩
  · intro hne
    constructor
    · rw [hev]
      refine List.mem_append.mpr (Or.inl (List.mem_append.mpr (Or.inr ?_)))
      exact pcap_src_mem_linkEventsFrom c.links 0 hne
    · rw [hev]
      refine List.mem_append.mpr (Or.inl (List.mem_append.mpr (Or.inr ?_)))
      exact pcap_dst_mem_linkEventsFrom c.links 0 0 (by omega) hne
  · intro tag idx d h0 hlt hm
    rcases hfwd tag idx d hm with ⟨-, h1, -⟩ | ⟨-, h1, -⟩ <;> omega

theorem claim4_boundary_capture_witness :
    run sampleConfig 0 = .ok sampleResult ∧
    BoundaryCaptureSpec sampleConfig sampleResult :=
  ⟨rfl, claim4_boundary_capture sampleConfig 0 sampleResult rfl⟩

/-- C5: the source is the first node created and the destination the last
node created, by creation order; the bulk sender is installed on the
source and the packet sink on the destination. -/
theorem claim5_roles (c : Config) (s : Nat) (r : RunResult)
    (h : run c s = .ok r) (hne : c.nodes ≠ []) : RolesSpec c r := by
  obtain ⟨-, -, hids, hsrc, hdst, -, -, -, -, hev⟩ := run_ok_spec c s r h
  have hlen : c.nodes.length ≠ 0 := fun h0 => hne (List.length_eq_zero.mp h0)
  refine ⟨hids, ?_, ?_, ?_, ?_⟩
  · rw [hsrc, if_pos hlen]
  · rw [hdst, if_pos hlen]
  · rw [hev]
    refine List.mem_append.mpr (Or.inr ?_)
    simp
  · rw [hev]
    refine List.mem_append.mpr (Or.inr ?_)
    simp

theorem claim5_roles_witness :
    run sampleConfig 0 = .ok sampleResult ∧ sampleConfig.nodes ≠ [] ∧
    RolesSpec sampleConfig sampleResult :=
  ⟨rfl, by decide, claim5_roles sampleConfig 0 sampleResult rfl (by decide)⟩

/-- C6: the transport-configuration snapshot (recovery type, congestion
control, segment size, SACK) is applied at the very top of the run —
the trace starts with exactly those four events and no transport default
appears later — so every transport default strictly precedes every
application installation. -/
theorem claim6_transport_snapshot (c : Config) (s : Nat) (r : RunResult)
    (h : run c s = .ok r) : TransportSnapshotSpec r := by
  obtain ⟨-, -, -, -, -, -, -, -, -, hev⟩ := run_ok_spec c s r h
  have hsplit : r.events = transportDefaults ++
      ([Event.setSeed seedConstant] ++ nodeEventsFrom c.nodes 0 ++
       [Event.installStack] ++
       linkEventsFrom (regFrom c.nodes 0) c.links.length c.links 0 0 ++
       [Event.populateRoutingTables,
        Event.appInstalled "BulkSend" r.srcNode r.dstAddress sinkPort,
        Event.appInstalled "PacketSink" r.dstNode none sinkPort,
        Event.appStart "PacketSink" 0, Event.appStart "BulkSend" 0,
        Event.simStop 60]) := by
    rw [hev]; simp [List.append_assoc]
  have hrest : ∀ e ∈ ([Event.setSeed seedConstant] ++ nodeEventsFrom c.nodes 0 ++
      [Event.installStack] ++
      linkEventsFrom (regFrom c.nodes 0) c.links.length c.links 0 0 ++
      [Event.populateRoutingTables,
       Event.appInstalled "BulkSend" r.srcNode r.dstAddress sinkPort,
       Event.appInstalled "PacketSink" r.dstNode none sinkPort,
       Event.appStart "PacketSink" 0, Event.appStart "BulkSend" 0,
       Event.simStop 60]), isTransportDefault e = false := by
    intro e he
    simp only [List.mem_append] at he
    rcases he with (((he | he) | he) | he) | he
    · simp only [List.mem_singleton] at he; subst he; rfl
    · exact (nodeEventsFrom_class _ _ he).2.2.2.2.2.2
    · simp only [List.mem_singleton] at he; subst he; rfl
    · exact (linkEventsFrom_class _ _ _ _ _ he).2.2.2.2
    · rcases List.mem_cons.mp he with he | he
      · subst he; rfl
      · exact (appTail_class _ _ _ _ he).2.2.2.2.1
  refine ⟨⟨_, hsplit, hrest⟩, ?_⟩
  apply ordered_of_split r.events transportDefaults _ isTransportDefault isAppInstalled
    hsplit hrest ?_
  exact fun e he => (transport_class e he).2.1

theorem claim6_transport_snapshot_witness :
    run sampleConfig 0 = .ok sampleResult ∧ TransportSnapshotSpec sampleResult :=
  ⟨rfl, claim6_transport_snapshot sampleConfig 0 sampleResult rfl⟩

/-- C9: the run is deterministic — its outcome is independent of the
engine RNG seed at entry because the seed is overwritten with the constant
123456789, and the seed-setting event strictly precedes every node- and
link-construction event. -/
theorem claim9_determinism (c : Config) : DeterminismSpec c := by
  refine ⟨fun s1 s2 => rfl, ?_⟩
  intro s r h
  obtain ⟨-, -, -, -, -, -, -, -, hseed, hev⟩ := run_ok_spec c s r h
  refine ⟨hseed, ?_, ?_⟩
  · rw [hev]; simp
  · have hsplit : r.events = (transportDefaults ++ [Event.setSeed seedConstant]) ++
        (nodeEventsFrom c.nodes 0 ++ [Event.installStack] ++
         linkEventsFrom (regFrom c.nodes 0) c.links.length c.links 0 0 ++
         [Event.populateRoutingTables,
          Event.appInstalled "BulkSend" r.srcNode r.dstAddress sinkPort,
          Event.appInstalled "PacketSink" r.dstNode none sinkPort,
          Event.appStart "PacketSink" 0, Event.appStart "BulkSend" 0,
          Event.simStop 60]) := by
      rw [hev]; simp [List.append_assoc]
    apply ordered_of_split r.events _ _ isSetSeed
      (fun e => isNodeCreated e || isLinkBuilt e) hsplit ?_ ?_
    · intro e he
      simp only [List.mem_append] at he
      rcases he with ((he | he) | he) | he
      · exact (nodeEventsFrom_class _ _ he).2.2.2.1
      · simp only [List.mem_singleton] at he; subst he; rfl
      · exact (linkEventsFrom_class _ _ _ _ _ he).2.2.1
      · rcases List.mem_cons.mp he with he | he
        · subst he; rfl
        · exact (appTail_class _ _ _ _ he).2.2.1
    · intro e he
      rcases List.mem_append.mp he with he | he
      · obtain ⟨-, -, -, h4, h5, -⟩ := transport_class e he
        show (isNodeCreated e || isLinkBuilt e) = false
        rw [h4, h5]
        rfl
      · simp only [List.mem_singleton] at he; subst he; rfl

/-- C10: with exactly one link, both boundary-capture conditions select
that link — a source-side capture on device 0 and a destination-side
capture on device 1, the only two captures — and the sender targets the
second host address of subnet `10.1.0.0`. -/
theorem claim10_single_link (c : Config) (s : Nat) (r : RunResult)
    (h : run c s = .ok r) (hone : c.links.length = 1) : SingleLinkSpec r := by
  obtain ⟨l, hl⟩ := List.length_eq_one.mp hone
  obtain ⟨-, -, -, -, -, -, -, hdst, -, hev⟩ := run_ok_spec c s r h
  have hLE : linkEventsFrom (regFrom c.nodes 0) c.links.length c.links 0 0 =
      [Event.linkBuilt 0 (findName (regFrom c.nodes 0) l.source)
         (findName (regFrom c.nodes 0) l.target),
       Event.subnetAssigned 0 (subnetString 0) subnetMask,
       Event.pcapEnabled "src_" 0 0, Event.pcapEnabled "dst_" 0 1] := by
    rw [hone, hl]
    simp [linkEventsFrom, linkBlock]
  have hda : r.dstAddress = some ⟨"10.1.0.0", 2⟩ := by
    rw [hdst, hone, if_pos (by omega)]
    rfl
  refine ⟨?_, ?_, ?_, hda, ?_⟩
  · rw [hev, hLE]; simp
  · rw [hev, hLE]; simp
  · rw [hev, hLE]
    simp only [List.countP_append]
    rw [show (nodeEventsFrom c.nodes 0).countP isPcap = 0 from
          List.countP_eq_zero.mpr (fun e he => by
            rw [(nodeEventsFrom_class _ _ he).2.2.2.2.2.1]; simp)]
    rfl
  · rw [← hda, hev]
    simp

theorem claim9_determinism_witness : DeterminismSpec sampleConfig :=
  claim9_determinism sampleConfig

theorem claim7_no_capacity_check_witness : NoCapacityCheckSpec manyLinksConfig 0 :=
  claim7_no_capacity_check manyLinksConfig 0

theorem claim10_single_link_witness :
    run singleLinkConfig 0 = .ok singleLinkResult ∧
    singleLinkConfig.links.length = 1 ∧ SingleLinkSpec singleLinkResult :=
  ⟨rfl, rfl, claim10_single_link singleLinkConfig 0 singleLinkResult rfl rfl⟩

end LeoViz
